import Mathlib

/-!
Verification development for the `ads1110-async` driver.

The definitions below are a shallow embedding of `src/config.rs` and
`src/lib.rs`.  Bytes are `Nat` values (callers pass values `< 256`; the
bit masks make every operation total).  The asynchronous I2C bus is an
oracle giving the outcome of the k-th read / write transaction of an
operation, and every operation additionally returns a `Trace` recording
the transactions performed and the sleep durations (in microseconds)
requested from the timer, in order.  Rust `unreachable!` panics are
modelled as the `none` outcome of an `Option`.
-/

namespace AdsDriver

/-! Configuration types, from `src/config.rs`. -/

inductive Address
  | A0 | A1 | A2 | A3 | A4 | A5 | A6 | A7
  deriving DecidableEq

def Address.into_addr : Address → Nat
  | .A0 => 0x48
  | .A1 => 0x49
  | .A2 => 0x4A
  | .A3 => 0x4B
  | .A4 => 0x4C
  | .A5 => 0x4D
  | .A6 => 0x4E
  | .A7 => 0x4F

inductive DataRate
  | Sps15 | Sps30 | Sps60 | Sps240
  deriving DecidableEq

def DataRate.interval : DataRate → Nat
  | .Sps15 => 66667
  | .Sps30 => 33333
  | .Sps60 => 16667
  | .Sps240 => 4167

def DataRate.quarter_interval : DataRate → Nat
  | .Sps15 => 16667
  | .Sps30 => 8333
  | .Sps60 => 4167
  | .Sps240 => 1042

inductive Start
  | DontStart | StartConversion
  deriving DecidableEq

inductive DataReady
  | FreshData | StaleData
  deriving DecidableEq

inductive ConversionMode
  | Continuous | OneShot
  deriving DecidableEq

inductive Gain
  | X1 | X2 | X4 | X8
  deriving DecidableEq

structure WriteSettings where
  start : Start
  sc : ConversionMode
  dr : DataRate
  pga : Gain
  deriving DecidableEq

def WriteSettings.to_value (s : WriteSettings) : Nat :=
  (match s.start with
    | Start.DontStart => 0x00
    | Start.StartConversion => 0x80) |||
  (match s.sc with
    | ConversionMode.Continuous => 0x00
    | ConversionMode.OneShot => 0x10) |||
  (match s.dr with
    | DataRate.Sps15 => 0x0C
    | DataRate.Sps30 => 0x08
    | DataRate.Sps60 => 0x04
    | DataRate.Sps240 => 0x00) |||
  (match s.pga with
    | Gain.X1 => 0x00
    | Gain.X2 => 0x01
    | Gain.X4 => 0x02
    | Gain.X8 => 0x03)

structure ReadSettings where
  n_drdy : DataReady
  sc : ConversionMode
  dr : DataRate
  pga : Gain
  deriving DecidableEq

/-- Embedding of `impl From<u8> for ReadSettings`.  The `_ => unreachable!()`
arms of the source are modelled by `none`. -/
def ReadSettings.from_u8 (value : Nat) : Option ReadSettings :=
  let n_drdy := if value &&& 0x80 = 0 then DataReady.FreshData else DataReady.StaleData
  let sc := if value &&& 0x10 = 0 then ConversionMode.Continuous else ConversionMode.OneShot
  let dr? : Option DataRate :=
    match value &&& 0x0C with
    | 0x00 => some DataRate.Sps240
    | 0x04 => some DataRate.Sps60
    | 0x08 => some DataRate.Sps30
    | 0x0C => some DataRate.Sps15
    | _ => none
  let pga? : Option Gain :=
    match value &&& 0x03 with
    | 0x00 => some Gain.X1
    | 0x01 => some Gain.X2
    | 0x02 => some Gain.X4
    | 0x03 => some Gain.X8
    | _ => none
  match dr?, pga? with
  | some dr, some pga => some ⟨n_drdy, sc, dr, pga⟩
  | _, _ => none

/-- Decode table written from the spec, section 4.1: bit 7 is data-ready
(0 = Fresh, 1 = Stale), bit 4 is the mode (0 = Continuous, 1 = OneShot),
bits 3:2 are the rate (11 = 15sps, 10 = 30sps, 01 = 60sps, 00 = 240sps) and
bits 1:0 the gain (00 = x1, 01 = x2, 10 = x4, 11 = x8).  It is compared with
`ReadSettings.from_u8`, the decoder embedded from the source. -/
def decodeTableSpec (value : Nat) : ReadSettings where
  n_drdy := if value.testBit 7 then DataReady.StaleData else DataReady.FreshData
  sc := if value.testBit 4 then ConversionMode.OneShot else ConversionMode.Continuous
  dr :=
    if value.testBit 3 then
      if value.testBit 2 then DataRate.Sps15 else DataRate.Sps30
    else
      if value.testBit 2 then DataRate.Sps60 else DataRate.Sps240
  pga :=
    if value.testBit 1 then
      if value.testBit 0 then Gain.X8 else Gain.X4
    else
      if value.testBit 0 then Gain.X2 else Gain.X1

/-- The function recovering the `start` field of a `WriteSettings` from the
decoding of its encoded byte: the start bit lands on the data-ready bit. -/
def recoverStart (rs : ReadSettings) : Start :=
  match rs.n_drdy with
  | DataReady.FreshData => Start.DontStart
  | DataReady.StaleData => Start.StartConversion

/-- The data-ready flag that decoding assigns to a written start bit. -/
def startToDrdy : Start → DataReady
  | Start.DontStart => DataReady.FreshData
  | Start.StartConversion => DataReady.StaleData

/-! Two's-complement 16-bit arithmetic, as used by `i16::from_be_bytes`
and the `<<` operator of Rust on `i16`. -/

/-- Interpret an integer as its 16-bit two's-complement truncation. -/
def toI16 (x : Int) : Int :=
  let u := x % 65536
  if u < 32768 then u else u - 65536

/-- `i16::from_be_bytes([hi, lo])`. -/
def i16_from_be_bytes (hi lo : Nat) : Int :=
  toI16 (((hi % 256) * 256 + lo % 256 : Nat) : Int)

/-- Rust `<<` on `i16`: arithmetic left shift, bits shifted past the top
are discarded. -/
def shlI16 (x : Int) (k : Nat) : Int :=
  toI16 (x * 2 ^ k)

/-! The driver, from `src/lib.rs`. -/

/-- The driver error type `Error<I>`. -/
inductive DriverError (ε : Type)
  | Timeout
  | I2c (e : ε)
  deriving DecidableEq

/-- The driver state: bus address, exclusively owned bus handle (abstract
type `β`) and the cached mode, rate and gain. -/
structure Ads1110 (β : Type) where
  addr : Nat
  i2c : β
  sc : ConversionMode
  dr : DataRate
  pga : Gain
  deriving DecidableEq

/-- The bus oracle: result of the k-th 3-byte read transaction and of the
k-th 1-byte write transaction of an operation. -/
structure BusSpec (ε : Type) where
  read : Nat → Except ε (Nat × Nat × Nat)
  write : Nat → Except ε Unit

/-- Observable effects of one driver operation: number of read
transactions performed, bytes written (one per write transaction,
in order), and sleep durations requested, in microseconds, in order. -/
structure Trace where
  readCount : Nat
  writeBytes : List Nat
  sleeps : List Nat
  deriving DecidableEq

/-- The polling loop of `read_value_raw`.  The source counts
`quarter_waits` upward and times out once `quarter_waits >= 5`; here
`budget = 5 - quarter_waits` counts the quarter-interval sleeps still
allowed, so the recursion is structural. -/
def pollLoop {ε : Type} (bus : BusSpec ε) (dr : DataRate) :
    Nat → Trace → Option (Except (DriverError ε) Int) × Trace
  | budget, t =>
    match bus.read t.readCount with
    | Except.error e =>
        (some (Except.error (DriverError.I2c e)), { t with readCount := t.readCount + 1 })
    | Except.ok (data_hi, data_lo, config) =>
        let t' := { t with readCount := t.readCount + 1 }
        match ReadSettings.from_u8 config with
        | none => (none, t')
        | some rs =>
            if rs.n_drdy = DataReady.FreshData then
              (some (Except.ok (i16_from_be_bytes data_hi data_lo)), t')
            else
              match budget with
              | 0 => (some (Except.error DriverError.Timeout), t')
              | b + 1 =>
                  pollLoop bus dr b
                    { t' with sleeps := t'.sleeps ++ [dr.quarter_interval] }

/-- Embedding of `Ads1110::read_value_raw`.  In `OneShot` mode the source
sets `quarter_waits = 4` after the coarse wait, i.e. `budget = 1`;
in `Continuous` mode `quarter_waits = 0`, i.e. `budget = 5`. -/
def read_value_raw {β ε : Type} (bus : BusSpec ε) (d : Ads1110 β) :
    Option (Except (DriverError ε) Int) × Ads1110 β × Trace :=
  let t0 : Trace := ⟨0, [], []⟩
  match d.sc with
  | ConversionMode.OneShot =>
      let w := WriteSettings.to_value ⟨Start.StartConversion, d.sc, d.dr, d.pga⟩
      let t1 : Trace := { t0 with writeBytes := t0.writeBytes ++ [w] }
      match bus.write 0 with
      | Except.error e => (some (Except.error (DriverError.I2c e)), d, t1)
      | Except.ok _ =>
          let t2 : Trace := { t1 with sleeps := t1.sleeps ++ [d.dr.interval] }
          let r := pollLoop bus d.dr 1 t2
          (r.1, d, r.2)
  | ConversionMode.Continuous =>
      let r := pollLoop bus d.dr 5 t0
      (r.1, d, r.2)

/-- The shift amounts of `read_value_normalized`, per rate. -/
def normShift : DataRate → Nat
  | DataRate.Sps15 => 0
  | DataRate.Sps30 => 1
  | DataRate.Sps60 => 2
  | DataRate.Sps240 => 4

/-- Embedding of `Ads1110::read_value_normalized`. -/
def read_value_normalized {β ε : Type} (bus : BusSpec ε) (d : Ads1110 β) :
    Option (Except (DriverError ε) Int) × Ads1110 β × Trace :=
  match read_value_raw bus d with
  | (some (Except.ok raw), d', t) =>
      (some (Except.ok
        (match d'.dr with
          | DataRate.Sps15 => raw
          | DataRate.Sps30 => shlI16 raw 1
          | DataRate.Sps60 => shlI16 raw 2
          | DataRate.Sps240 => shlI16 raw 4)), d', t)
  | other => other

/-- Embedding of `Ads1110::write_settings`. -/
def write_settings {β ε : Type} (bus : BusSpec ε) (d : Ads1110 β)
    (settings : WriteSettings) : Except ε Unit × Ads1110 β × Trace :=
  let settings_u8 := settings.to_value
  let t : Trace := ⟨0, [settings_u8], []⟩
  match bus.write 0 with
  | Except.error e => (Except.error e, d, t)
  | Except.ok _ =>
      (Except.ok (),
       { d with sc := settings.sc, dr := settings.dr, pga := settings.pga }, t)

/-- Embedding of `Ads1110::new`: one bootstrap 3-byte read; on failure the
bus handle is returned to the caller alongside the error. -/
def Ads1110.new {β ε : Type} (bus : BusSpec ε) (i2c : β) (addr : Address) :
    Option (Except (β × ε) (Ads1110 β)) × Trace :=
  let addru8 := addr.into_addr
  match bus.read 0 with
  | Except.error e => (some (Except.error (i2c, e)), ⟨1, [], []⟩)
  | Except.ok (_data_hi, _data_lo, config) =>
      match ReadSettings.from_u8 config with
      | none => (none, ⟨1, [], []⟩)
      | some rs => (some (Except.ok ⟨addru8, i2c, rs.sc, rs.dr, rs.pga⟩), ⟨1, [], []⟩)

/-- Embedding of `Ads1110::release`. -/
def Ads1110.release {β : Type} (d : Ads1110 β) : β :=
  d.i2c

/-- A read at index `j` that succeeds and decodes with a Stale data-ready
flag. -/
def staleAt {ε : Type} (bus : BusSpec ε) (j : Nat) : Prop :=
  ∃ hi lo cfg rs, bus.read j = Except.ok (hi, lo, cfg) ∧
    ReadSettings.from_u8 cfg = some rs ∧ rs.n_drdy = DataReady.StaleData

/-! Concrete buses and drivers used to instantiate the theorems. -/

/-- A bus whose every read succeeds with a Stale status byte `0x8C`
(Stale, Continuous, 15sps, x1) and whose every write succeeds. -/
def busStale : BusSpec Unit :=
  ⟨fun _ => Except.ok (1, 2, 0x8C), fun _ => Except.ok ()⟩

/-- A bus Stale on reads 0 and 1, Fresh from read 2 on (status `0x0C`,
data bytes `0xFF 0xFE`, i.e. the value -2); writes succeed. -/
def busFreshAt2 : BusSpec Unit :=
  ⟨fun k => if k < 2 then Except.ok (1, 2, 0x8C) else Except.ok (0xFF, 0xFE, 0x0C),
   fun _ => Except.ok ()⟩

/-- A bus whose every transaction fails with transport error `7`. -/
def busErr7 : BusSpec Nat :=
  ⟨fun _ => Except.error 7, fun _ => Except.error 7⟩

/-- A bus whose every read succeeds with status byte `0x9C`
(Stale, OneShot, 15sps, x1) and whose every write succeeds. -/
def busOk9C : BusSpec Nat :=
  ⟨fun _ => Except.ok (5, 6, 0x9C), fun _ => Except.ok ()⟩

/-- A bus whose every read is Fresh with data bytes `0x10 0x00`
(raw value 4096) and status byte `0x00`; writes succeed. -/
def busFresh240 : BusSpec Unit :=
  ⟨fun _ => Except.ok (0x10, 0x00, 0x00), fun _ => Except.ok ()⟩

/-- A driver cached in Continuous mode at 15sps, gain x1. -/
def dCont : Ads1110 Unit :=
  ⟨0x48, (), ConversionMode.Continuous, DataRate.Sps15, Gain.X1⟩

/-- A driver cached in OneShot mode at 15sps, gain x1. -/
def dOneShot : Ads1110 Unit :=
  ⟨0x48, (), ConversionMode.OneShot, DataRate.Sps15, Gain.X1⟩

/-- A driver cached in Continuous mode at 240sps, gain x1. -/
def d240 : Ads1110 Unit :=
  ⟨0x48, (), ConversionMode.Continuous, DataRate.Sps240, Gain.X1⟩

/-- Settings used to exercise `write_settings`: encoded byte `0x93`. -/
def sAll : WriteSettings :=
  ⟨Start.StartConversion, ConversionMode.OneShot, DataRate.Sps240, Gain.X8⟩



set_option maxRecDepth 8000

/-! Helper lemmas. -/

/-- `toI16` always lands in the 16-bit two's-complement range. -/
theorem toI16_range (x : Int) : -32768 ≤ toI16 x ∧ toI16 x < 32768 := by
  simp only [toI16]
  split <;> omega

/-- `toI16` is the identity on the 16-bit two's-complement range. -/
theorem toI16_eq_self (x : Int) (h1 : -32768 ≤ x) (h2 : x < 32768) : toI16 x = x := by
  simp only [toI16]
  split <;> omega

/-- `i16::from_be_bytes` always lands in the 16-bit range. -/
theorem i16_from_be_bytes_range (hi lo : Nat) :
    -32768 ≤ i16_from_be_bytes hi lo ∧ i16_from_be_bytes hi lo < 32768 :=
  toI16_range _

/-- On a bus whose every read decodes Stale, the polling loop exhausts its
whole budget: one read per remaining quarter wait plus the final read, then
Timeout. -/
theorem pollLoop_stale {ε : Type} (bus : BusSpec ε) (dr : DataRate)
    (hst : ∀ j, staleAt bus j) :
    ∀ (budget : Nat) (t : Trace),
      pollLoop bus dr budget t =
        (some (Except.error DriverError.Timeout),
         Trace.mk (t.readCount + budget + 1) t.writeBytes
           (t.sleeps ++ List.replicate budget dr.quarter_interval)) := by
  intro budget
  induction budget with
  | zero =>
      intro t
      obtain ⟨hi, lo, cfg, rs, hr, hd, hs⟩ := hst t.readCount
      rw [pollLoop.eq_def]
      dsimp only
      rw [hr]
      dsimp only
      rw [hd]
      simp [hs]
  | succ b ih =>
      intro t
      obtain ⟨hi, lo, cfg, rs, hr, hd, hs⟩ := hst t.readCount
      rw [pollLoop.eq_def]
      dsimp only
      rw [hr]
      dsimp only
      rw [hd]
      simp only [hs]
      rw [if_neg (by simp)]
      rw [ih]
      simp only [Prod.mk.injEq, Trace.mk.injEq, true_and]
      refine ⟨by omega, ?_⟩
      rw [List.append_assoc, List.singleton_append, ← List.replicate_succ]

/-- If the first `n` reads after `t.readCount` decode Stale and read number
`t.readCount + n` decodes Fresh, and the budget allows `n` retries, the
polling loop returns the Fresh read's data bytes after `n + 1` reads and
`n` quarter-interval sleeps. -/
theorem pollLoop_fresh {ε : Type} (bus : BusSpec ε) (dr : DataRate)
    (hi lo cfg : Nat) (rs : ReadSettings)
    (hdec : ReadSettings.from_u8 cfg = some rs)
    (hfresh : rs.n_drdy = DataReady.FreshData) :
    ∀ (n budget : Nat) (t : Trace), n ≤ budget →
      (∀ k, k < n → staleAt bus (t.readCount + k)) →
      bus.read (t.readCount + n) = Except.ok (hi, lo, cfg) →
      pollLoop bus dr budget t =
        (some (Except.ok (i16_from_be_bytes hi lo)),
         Trace.mk (t.readCount + n + 1) t.writeBytes
           (t.sleeps ++ List.replicate n dr.quarter_interval)) := by
  intro n
  induction n with
  | zero =>
      intro budget t _ _ hread
      rw [Nat.add_zero] at hread
      rw [pollLoop.eq_def]
      dsimp only
      rw [hread]
      dsimp only
      rw [hdec]
      simp [hfresh]
  | succ n ih =>
      intro budget t hbud hstale hread
      obtain ⟨shi, slo, scfg, srs, hr, hd, hs⟩ := hstale 0 (Nat.succ_pos n)
      rw [Nat.add_zero] at hr
      rcases budget with _ | b
      · omega
      rw [pollLoop.eq_def]
      dsimp only
      rw [hr]
      dsimp only
      rw [hd]
      simp only [hs]
      rw [if_neg (by simp [hs])]
      rw [ih b ⟨t.readCount + 1, t.writeBytes, t.sleeps ++ [dr.quarter_interval]⟩
        (by omega)
        (fun k hk => by
          have h2 := hstale (k + 1) (by omega)
          have h3 : t.readCount + (k + 1) = t.readCount + 1 + k := by omega
          rw [h3] at h2
          exact h2)
        (by
          have h3 : t.readCount + (n + 1) = t.readCount + 1 + n := by omega
          rw [h3] at hread
          exact hread)]
      simp only [Prod.mk.injEq, Trace.mk.injEq, true_and]
      refine ⟨by omega, ?_⟩
      rw [List.append_assoc, List.singleton_append, ← List.replicate_succ]

/-- Any successful value produced by the polling loop lies in the 16-bit
two's-complement range (it is an `i16::from_be_bytes` result). -/
theorem pollLoop_ok_range {ε : Type} (bus : BusSpec ε) (dr : DataRate) :
    ∀ (budget : Nat) (t : Trace) (v : Int) (t₂ : Trace),
      pollLoop bus dr budget t = (some (Except.ok v), t₂) →
      -32768 ≤ v ∧ v < 32768 := by
  intro budget
  induction budget with
  | zero =>
      intro t v t₂ h
      rw [pollLoop.eq_def] at h
      dsimp only at h
      rcases hr : bus.read t.readCount with e | tri
      · rw [hr] at h
        dsimp only at h
        simp at h
      · obtain ⟨hi, lo, cfg⟩ := tri
        rw [hr] at h
        dsimp only at h
        rcases hd : ReadSettings.from_u8 cfg with _ | rs
        · rw [hd] at h
          dsimp only at h
          simp at h
        · rw [hd] at h
          dsimp only at h
          by_cases hf : rs.n_drdy = DataReady.FreshData
          · rw [if_pos hf] at h
            simp only [Prod.mk.injEq, Option.some.injEq, Except.ok.injEq] at h
            rw [← h.1]
            exact i16_from_be_bytes_range hi lo
          · rw [if_neg hf] at h
            simp at h
  | succ b ih =>
      intro t v t₂ h
      rw [pollLoop.eq_def] at h
      dsimp only at h
      rcases hr : bus.read t.readCount with e | tri
      · rw [hr] at h
        dsimp only at h
        simp at h
      · obtain ⟨hi, lo, cfg⟩ := tri
        rw [hr] at h
        dsimp only at h
        rcases hd : ReadSettings.from_u8 cfg with _ | rs
        · rw [hd] at h
          dsimp only at h
          simp at h
        · rw [hd] at h
          dsimp only at h
          by_cases hf : rs.n_drdy = DataReady.FreshData
          · rw [if_pos hf] at h
            simp only [Prod.mk.injEq, Option.some.injEq, Except.ok.injEq] at h
            rw [← h.1]
            exact i16_from_be_bytes_range hi lo
          · rw [if_neg hf] at h
            exact ih _ _ _ h

/-- Any successful raw read value lies in the 16-bit range. -/
theorem read_raw_ok_range {β ε : Type} (bus : BusSpec ε) (d : Ads1110 β)
    (raw : Int) (d' : Ads1110 β) (t : Trace)
    (h : read_value_raw bus d = (some (Except.ok raw), d', t)) :
    -32768 ≤ raw ∧ raw < 32768 := by
  rw [read_value_raw.eq_def] at h
  cases hsc : d.sc
  case Continuous =>
      rw [hsc] at h
      dsimp only at h
      rcases hp : pollLoop bus d.dr 5 ⟨0, [], []⟩ with ⟨res, t₂⟩
      rw [hp] at h
      simp only [Prod.mk.injEq] at h
      obtain ⟨h1, _, _⟩ := h
      rw [h1] at hp
      exact pollLoop_ok_range bus d.dr 5 _ raw t₂ hp
  case OneShot =>
      rw [hsc] at h
      dsimp only at h
      rcases hw : bus.write 0 with e | u
      · rw [hw] at h
        dsimp only at h
        simp at h
      · rw [hw] at h
        dsimp only at h
        simp only [List.nil_append] at h
        rcases hp : pollLoop bus d.dr 1
            ⟨0, [WriteSettings.to_value ⟨Start.StartConversion, ConversionMode.OneShot, d.dr, d.pga⟩],
             [d.dr.interval]⟩ with ⟨res, t₂⟩
        rw [hp] at h
        simp only [Prod.mk.injEq] at h
        obtain ⟨h1, _, _⟩ := h
        rw [h1] at hp
        exact pollLoop_ok_range bus d.dr 1 _ raw t₂ hp

/-- Decoding depends only on the bits kept by the mask `0x9F`
(that is, bits 6 and 5 are ignored). -/
theorem from_u8_mask65 : ∀ v < 256,
    ReadSettings.from_u8 v = ReadSettings.from_u8 (v &&& 0x9F) := by
  decide

/-! Claim theorems. -/

/-- C2 counterexample: the `start` field IS recoverable from the decoded
value, because encoding places it on bit 7, which decoding reads back as
the data-ready flag.  `recoverStart` recovers it for every `WriteSettings`,
and two settings differing only in `start` decode to different values. -/
theorem c2_start_recoverable_counterexample :
    (∃ f : ReadSettings → Start,
        ∀ w : WriteSettings, (ReadSettings.from_u8 w.to_value).map f = some w.start) ∧
    ReadSettings.from_u8 (WriteSettings.to_value
        ⟨Start.StartConversion, ConversionMode.Continuous, DataRate.Sps15, Gain.X1⟩) ≠
      ReadSettings.from_u8 (WriteSettings.to_value
        ⟨Start.DontStart, ConversionMode.Continuous, DataRate.Sps15, Gain.X1⟩) := by
  refine ⟨⟨recoverStart, ?_⟩, by decide⟩
  intro w
  rcases w with ⟨s, c, r, g⟩
  cases s <;> cases c <;> cases r <;> cases g <;> rfl

/-- C2 (amended): for every `WriteSettings w`, decoding the encoded byte
yields a `ReadSettings` whose mode, rate and gain equal `w`'s; the `start`
field has no read-side field of its own but is reflected into the decoded
data-ready flag (DontStart to Fresh, StartConversion to Stale), so it is
recoverable from the decoded value. -/
theorem c2_roundtrip (w : WriteSettings) :
    ReadSettings.from_u8 w.to_value = some ⟨startToDrdy w.start, w.sc, w.dr, w.pga⟩ := by
  rcases w with ⟨s, c, r, g⟩
  cases s <;> cases c <;> cases r <;> cases g <;> rfl

/-- C3: every one of the 256 byte values decodes successfully (the
`unreachable!` arms are never taken), and decodes exactly as the decode
table of spec section 4.1 specifies. -/
theorem c3_decode_total_table : ∀ v < 256,
    ReadSettings.from_u8 v = some (decodeTableSpec v) := by
  decide

/-- C3 witness at the concrete byte `0xB6`. -/
theorem c3_decode_total_table_witness :
    0xB6 < 256 ∧ ReadSettings.from_u8 0xB6 = some (decodeTableSpec 0xB6) :=
  ⟨by decide, c3_decode_total_table 0xB6 (by decide)⟩

/-- C9: two bytes that differ only in bits 6 and/or 5 (equal under the
mask `0x9F`) decode to equal `ReadSettings` values. -/
theorem c9_decode_ignores_bits65 (v w : Nat) (hv : v < 256) (hw : w < 256)
    (hmask : v &&& 0x9F = w &&& 0x9F) :
    ReadSettings.from_u8 v = ReadSettings.from_u8 w := by
  rw [from_u8_mask65 v hv, from_u8_mask65 w hw, hmask]

/-- C9 witness: `0xFF` and `0x9F` differ exactly in bits 6 and 5 and
decode equally. -/
theorem c9_decode_ignores_bits65_witness :
    0xFF < 256 ∧ 0x9F < 256 ∧ 0xFF &&& 0x9F = 0x9F &&& 0x9F ∧
    ReadSettings.from_u8 0xFF = ReadSettings.from_u8 0x9F :=
  ⟨by decide, by decide, by decide,
   c9_decode_ignores_bits65 0xFF 0x9F (by decide) (by decide) (by decide)⟩

/-- C1 counterexample: on a bus whose every read reports Stale and whose
writes succeed, `read_value_raw` in OneShot mode times out after only 2
read transactions and 1 quarter-interval sleep following the coarse wait
(the counter starts at 4), not after the 6 reads and 5 quarter-interval
sleeps the claim states. -/
theorem c1_oneshot_budget_counterexample :
    read_value_raw busStale dOneShot =
      (some (Except.error DriverError.Timeout), dOneShot,
       Trace.mk 2 [0x9C] [66667, 16667]) ∧
    (read_value_raw busStale dOneShot).2.2 ≠
      Trace.mk 6 [0x9C] (66667 :: List.replicate 5 16667) :=
  ⟨rfl, by decide⟩

/-- C1 (amended): on a bus whose every read reports Stale and whose writes
succeed, `read_value_raw` in OneShot mode performs one write transaction
(the encoded settings with `start = StartConversion`) and one
full-sampling-interval sleep; the coarse wait consumes four quarters of
the polling budget, so only 2 read transactions and 1 quarter-interval
sleep follow before it fails with Timeout — a total worst-case wait of
5/4 of the sampling interval. -/
theorem c1_oneshot_stale_timeout {β ε : Type} (bus : BusSpec ε) (d : Ads1110 β)
    (hsc : d.sc = ConversionMode.OneShot) (hw : bus.write 0 = Except.ok ())
    (hst : ∀ j, staleAt bus j) :
    read_value_raw bus d =
      (some (Except.error DriverError.Timeout), d,
       Trace.mk 2
         [WriteSettings.to_value ⟨Start.StartConversion, ConversionMode.OneShot, d.dr, d.pga⟩]
         [d.dr.interval, d.dr.quarter_interval]) := by
  rw [read_value_raw.eq_def, hsc]
  dsimp only
  rw [hw]
  dsimp only
  simp only [List.nil_append]
  rw [pollLoop_stale bus d.dr hst 1
    ⟨0, [WriteSettings.to_value ⟨Start.StartConversion, ConversionMode.OneShot, d.dr, d.pga⟩],
     [d.dr.interval]⟩]
  simp

/-- C1 witness: the amended theorem at the concrete all-Stale bus and a
OneShot driver cached at 15sps. -/
theorem c1_oneshot_stale_timeout_witness :
    read_value_raw busStale dOneShot =
      (some (Except.error DriverError.Timeout), dOneShot,
       Trace.mk 2 [0x9C] [66667, 16667]) :=
  c1_oneshot_stale_timeout busStale dOneShot rfl rfl
    (fun _ => ⟨1, 2, 0x8C,
      ⟨DataReady.StaleData, ConversionMode.Continuous, DataRate.Sps15, Gain.X1⟩,
      rfl, rfl, rfl⟩)

/-- C4: on a bus whose every read reports Stale, `read_value_raw` in
Continuous mode returns Timeout after exactly 6 read transactions and 5
quarter-interval sleeps, with no write transaction and no full-interval
sleep. -/
theorem c4_continuous_stale_timeout {β ε : Type} (bus : BusSpec ε) (d : Ads1110 β)
    (hsc : d.sc = ConversionMode.Continuous) (hst : ∀ j, staleAt bus j) :
    read_value_raw bus d =
      (some (Except.error DriverError.Timeout), d,
       Trace.mk 6 [] (List.replicate 5 d.dr.quarter_interval)) := by
  rw [read_value_raw.eq_def, hsc]
  dsimp only
  rw [pollLoop_stale bus d.dr hst 5 ⟨0, [], []⟩]
  simp

/-- C4 witness: the concrete all-Stale bus and a Continuous driver at
15sps. -/
theorem c4_continuous_stale_timeout_witness :
    read_value_raw busStale dCont =
      (some (Except.error DriverError.Timeout), dCont,
       Trace.mk 6 [] (List.replicate 5 16667)) :=
  c4_continuous_stale_timeout busStale dCont rfl
    (fun _ => ⟨1, 2, 0x8C,
      ⟨DataReady.StaleData, ConversionMode.Continuous, DataRate.Sps15, Gain.X1⟩,
      rfl, rfl, rfl⟩)

/-- C5: if the first `n < 5` reads report Stale and read `n + 1` reports
Fresh, `read_value_raw` in Continuous mode succeeds after exactly `n + 1`
read transactions and `n` quarter-interval sleeps, returning the Fresh
read's data bytes as a big-endian two's-complement 16-bit signed
integer. -/
theorem c5_continuous_fresh_success {β ε : Type} (bus : BusSpec ε) (d : Ads1110 β)
    (n hi lo cfg : Nat) (rs : ReadSettings)
    (hsc : d.sc = ConversionMode.Continuous) (hn : n < 5)
    (hstale : ∀ k, k < n → staleAt bus k)
    (hread : bus.read n = Except.ok (hi, lo, cfg))
    (hdec : ReadSettings.from_u8 cfg = some rs)
    (hfresh : rs.n_drdy = DataReady.FreshData) :
    read_value_raw bus d =
      (some (Except.ok (i16_from_be_bytes hi lo)), d,
       Trace.mk (n + 1) [] (List.replicate n d.dr.quarter_interval)) := by
  rw [read_value_raw.eq_def, hsc]
  dsimp only
  rw [pollLoop_fresh bus d.dr hi lo cfg rs hdec hfresh n 5 ⟨0, [], []⟩
    (by omega) (fun k hk => by simpa using hstale k hk) (by simpa using hread)]
  simp

/-- C5 witness: Stale on reads 0 and 1, Fresh with bytes `0xFF 0xFE` on
read 2, at 15sps: 3 reads, 2 quarter-interval sleeps, value -2. -/
theorem c5_continuous_fresh_success_witness :
    read_value_raw busFreshAt2 dCont =
      (some (Except.ok (-2)), dCont, Trace.mk 3 [] (List.replicate 2 16667)) := by
  have h := c5_continuous_fresh_success busFreshAt2 dCont 2 0xFF 0xFE 0x0C
    ⟨DataReady.FreshData, ConversionMode.Continuous, DataRate.Sps15, Gain.X1⟩
    rfl (by omega)
    (fun k hk => ⟨1, 2, 0x8C,
      ⟨DataReady.StaleData, ConversionMode.Continuous, DataRate.Sps15, Gain.X1⟩,
      by simp [busFreshAt2, hk], rfl, rfl⟩)
    rfl rfl rfl
  simpa using h

/-- C6: if the single-byte write fails, `write_settings` returns the
transport error and leaves the cached mode, rate and gain (and the rest of
the driver state) unchanged; if it succeeds, all three cached fields are
replaced with the argument's mode, rate and gain at once, and the
argument's `start` field is never stored (the driver state has no start
field and only `sc`, `dr`, `pga` change). -/
theorem c6_write_settings_cache {β ε : Type} (bus : BusSpec ε) (d : Ads1110 β)
    (s : WriteSettings) :
    (∀ e, bus.write 0 = Except.error e →
        write_settings bus d s = (Except.error e, d, Trace.mk 0 [s.to_value] [])) ∧
    (bus.write 0 = Except.ok () →
        write_settings bus d s =
          (Except.ok (), Ads1110.mk d.addr d.i2c s.sc s.dr s.pga,
           Trace.mk 0 [s.to_value] [])) := by
  constructor
  · intro e he
    rw [write_settings.eq_def]
    dsimp only
    rw [he]
  · intro hw
    rw [write_settings.eq_def]
    dsimp only
    rw [hw]

/-- C6 witness: a failing write leaves the cache unchanged; a succeeding
write installs mode OneShot, rate 240sps, gain x8 atomically. -/
theorem c6_write_settings_cache_witness :
    write_settings busErr7 dCont sAll = (Except.error 7, dCont, Trace.mk 0 [0x93] []) ∧
    write_settings busOk9C dCont sAll =
      (Except.ok (),
       Ads1110.mk 0x48 () ConversionMode.OneShot DataRate.Sps240 Gain.X8,
       Trace.mk 0 [0x93] []) :=
  ⟨(c6_write_settings_cache busErr7 dCont sAll).1 7 rfl,
   (c6_write_settings_cache busOk9C dCont sAll).2 rfl⟩

/-- C7: if the bootstrap read fails, the constructor returns the error
together with the original bus handle unchanged; on success it returns a
driver whose cached mode, rate and gain are decoded from the third byte of
the bootstrap read. -/
theorem c7_new_ownership_and_cache {β ε : Type} (bus : BusSpec ε) (i2c : β)
    (addr : Address) :
    (∀ e, bus.read 0 = Except.error e →
        Ads1110.new bus i2c addr =
          (some (Except.error (i2c, e)), Trace.mk 1 [] [])) ∧
    (∀ hi lo cfg rs, bus.read 0 = Except.ok (hi, lo, cfg) →
        ReadSettings.from_u8 cfg = some rs →
        Ads1110.new bus i2c addr =
          (some (Except.ok (Ads1110.mk addr.into_addr i2c rs.sc rs.dr rs.pga)),
           Trace.mk 1 [] [])) := by
  constructor
  · intro e he
    rw [Ads1110.new.eq_def]
    dsimp only
    rw [he]
  · intro hi lo cfg rs hr hd
    rw [Ads1110.new.eq_def]
    dsimp only
    rw [hr]
    dsimp only
    rw [hd]

/-- C7 witness: a failing bootstrap read returns the handle `42` with
error `7`; a successful one caches the decode of status byte `0x9C`. -/
theorem c7_new_ownership_and_cache_witness :
    Ads1110.new busErr7 42 Address.A3 =
      (some (Except.error (42, 7)), Trace.mk 1 [] []) ∧
    Ads1110.new busOk9C 42 Address.A3 =
      (some (Except.ok
        (Ads1110.mk 0x4B 42 ConversionMode.OneShot DataRate.Sps15 Gain.X1)),
       Trace.mk 1 [] []) :=
  ⟨(c7_new_ownership_and_cache busErr7 42 Address.A3).1 7 rfl,
   (c7_new_ownership_and_cache busOk9C 42 Address.A3).2 5 6 0x9C
     ⟨DataReady.StaleData, ConversionMode.OneShot, DataRate.Sps15, Gain.X1⟩ rfl rfl⟩

/-- C8: when the raw read succeeds with value `raw`, the normalized read
returns `raw` arithmetically left-shifted (16-bit two's complement, bits
past the top discarded) by 0, 1, 2 or 4 bits for the cached rates 15, 30,
60, 240 sps respectively; in particular raw `0x1000` shifted for 240sps is
`0x10000` truncated to 16 bits, i.e. 0. -/
theorem c8_normalized_shift {β ε : Type} (bus : BusSpec ε) (d : Ads1110 β)
    (raw : Int) (d' : Ads1110 β) (t : Trace)
    (h : read_value_raw bus d = (some (Except.ok raw), d', t)) :
    read_value_normalized bus d =
      (some (Except.ok (shlI16 raw (normShift d'.dr))), d', t) ∧
    shlI16 0x1000 4 = 0 := by
  constructor
  · have hrange := read_raw_ok_range bus d raw d' t h
    rw [read_value_normalized.eq_def, h]
    dsimp only
    cases hdr : d'.dr
    · dsimp only [normShift]
      rw [show shlI16 raw 0 = raw from by
        rw [shlI16, pow_zero, mul_one]
        exact toI16_eq_self raw hrange.1 hrange.2]
    · rfl
    · rfl
    · rfl
  · decide

/-- C8 witness: a Fresh read of bytes `0x10 0x00` (raw 4096) at 240sps
normalizes to 0. -/
theorem c8_normalized_shift_witness :
    read_value_normalized busFresh240 d240 =
      (some (Except.ok 0), d240, Trace.mk 1 [] []) := by
  have h := c8_normalized_shift busFresh240 d240 4096 d240 (Trace.mk 1 [] []) rfl
  simpa using h.1

/-- C10: neither `read_value_raw` nor `read_value_normalized` ever
modifies the driver state — the bus address and the cached mode, rate and
gain are returned unchanged for every bus behaviour. -/
theorem c10_read_frame {β ε : Type} (bus : BusSpec ε) (d : Ads1110 β) :
    (read_value_raw bus d).2.1 = d ∧ (read_value_normalized bus d).2.1 = d := by
  have h1 : (read_value_raw bus d).2.1 = d := by
    rw [read_value_raw.eq_def]
    cases hsc : d.sc
    · dsimp only
    · dsimp only
      cases bus.write 0 <;> rfl
  refine ⟨h1, ?_⟩
  rw [read_value_normalized.eq_def]
  rcases hr : read_value_raw bus d with ⟨res, d', t⟩
  have hd' : d' = d := by
    have h2 := h1
    rw [hr] at h2
    exact h2
  subst hd'
  rcases res with _ | res
  · rfl
  · rcases res with e | raw <;> rfl

end AdsDriver
